import Mathlib

/-!
Shallow embedding of `unison-fsmonitor` (src/main.rs): a line-protocol
bridge between a synchronization host and a filesystem watch service.

Modelling conventions:
* machine bytes are `Nat` values `< 256`;
* Rust `String`s are Lean `String`s; where byte-exact behaviour matters
  (the percent codec) we work on the UTF-8 byte list directly;
* the `HashMap`s `replicas` and `pending_changes` are association lists
  (`List (String × _)`); `HashMap` iteration order is unspecified in Rust,
  the association list fixes insertion order;
* stdout lines produced through `send_cmd` are modelled by the inductive
  `Out` (one constructor per emitting helper: `ack`, `changes`,
  `recursive`, `done`, `error`, plus the startup `VERSION` line);
* `bail!` / `?` propagation out of `main` (process exits non-zero, no
  `ERROR` line is printed to stdout) is distinguished from the `error`
  helper (prints `ERROR <msg>` then calls `exit(1)`).
-/

/- ### Byte-level percent codec (src/main.rs lines 20-26)

`encode` is `percent_encoding::utf8_percent_encode(s, SIMPLE_ENCODE_SET)`,
`decode` is `percent_encoding::percent_decode(..).decode_utf8_lossy()`
(crate `percent-encoding` 1.x). `SIMPLE_ENCODE_SET.contains(byte)` is
`byte < 0x20 || byte > 0x7E`. Encoding writes `%` followed by two
uppercase hex digits; decoding turns `%XY` (hex digits, any case) back
into a byte and passes anything else through unchanged. The trailing
`decode_utf8_lossy` is the identity on valid UTF-8 and is not modelled:
the round-trip statements below live at the byte level. -/

/-- Value of an ASCII hex-digit byte (`0-9`, `A-F`, `a-f`), mirroring the
digit test `percent_decode` performs before consuming a `%XY` escape. -/
def fromHexDigit (b : Nat) : Option Nat :=
  if 0x30 ≤ b ∧ b ≤ 0x39 then some (b - 0x30)
  else if 0x41 ≤ b ∧ b ≤ 0x46 then some (b - 0x41 + 10)
  else if 0x61 ≤ b ∧ b ≤ 0x66 then some (b - 0x61 + 10)
  else none

/-- Whether a byte is an ASCII hex digit. -/
def isHexDigit (b : Nat) : Bool := (fromHexDigit b).isSome

/-- Uppercase ASCII hex digit byte for a value `< 16` (the crate formats
escapes with `%{:02X}`). -/
def toHexDigit (n : Nat) : Nat :=
  if n < 10 then 0x30 + n else 0x41 + (n - 10)

/-- `SIMPLE_ENCODE_SET` of `percent-encoding` 1.x: C0 controls and every
byte above `0x7E`. -/
def simpleEncodeSet (b : Nat) : Bool := b < 0x20 || b > 0x7E

/-- The three output bytes of one percent escape: `%`, high digit, low digit. -/
def percentEncodeByte (b : Nat) : List Nat :=
  [0x25, toHexDigit (b / 16), toHexDigit (b % 16)]

/-- `encode` (src/main.rs line 20-22) on the UTF-8 bytes of the argument:
each byte in `SIMPLE_ENCODE_SET` becomes a `%XY` escape, every other byte
passes through unchanged. -/
def encodeBytes (bs : List Nat) : List Nat :=
  bs.flatMap fun b => if simpleEncodeSet b then percentEncodeByte b else [b]

/-- `percent_decode` (used by `decode`, src/main.rs line 24-26): a `%`
followed by two hex digits decodes to that byte; a `%` not followed by two
hex digits is passed through literally and scanning resumes at the next
byte, exactly as the crate does. -/
def percentDecode : List Nat → List Nat
  | [] => []
  | 37 :: h :: l :: rest =>
    match fromHexDigit h, fromHexDigit l with
    | some hv, some lv => (hv * 16 + lv) :: percentDecode rest
    | _, _ => 37 :: percentDecode (h :: l :: rest)
  | b :: rest => b :: percentDecode rest

/-- No `%` byte in the list is immediately followed by two hex-digit
bytes (the side condition under which the codec round-trips). -/
def noPctHex : List Nat → Bool
  | b :: h :: l :: rest =>
    (b != 0x25 || !(isHexDigit h && isHexDigit l)) && noPctHex (h :: l :: rest)
  | _ => true

/- ### Character-level string helpers

`parse_input` (src/main.rs lines 60-74) splits a line on whitespace and
percent-decodes every token after the first. For the protocol state
machine we mirror the decoder character-wise over `String.data`; on ASCII
strings (every token the protocol theorems below touch) this coincides
with byte-level `percent_decode` followed by lossy UTF-8 decoding. -/

/-- Split a character list at every separator character, keeping empty
chunks (mirrors the chunking both `split_whitespace` and path-component
splitting are built from, before empties are dropped). -/
def splitListAux (p : Char → Bool) : List Char → List Char → List (List Char)
  | [], acc => [acc.reverse]
  | c :: cs, acc =>
    if p c then acc.reverse :: splitListAux p cs []
    else splitListAux p cs (c :: acc)

/-- Split a character list on a separator predicate. -/
def splitList (p : Char → Bool) (cs : List Char) : List (List Char) :=
  splitListAux p cs []

/-- Character-wise percent decoder (see module comment: coincides with the
byte-level decoder on ASCII data). -/
def percentDecodeChars : List Char → List Char
  | [] => []
  | '%' :: h :: l :: rest =>
    match fromHexDigit h.toNat, fromHexDigit l.toNat with
    | some hv, some lv => Char.ofNat (hv * 16 + lv) :: percentDecodeChars rest
    | _, _ => '%' :: percentDecodeChars (h :: l :: rest)
  | c :: rest => c :: percentDecodeChars rest

/-- `decode` (src/main.rs lines 24-26) at the string level. -/
def decodeStr (s : String) : String := ⟨percentDecodeChars s.data⟩

/-- Rust `str::split_whitespace`: whitespace-separated tokens, empty
tokens dropped. -/
def splitWhitespace (s : String) : List String :=
  ((splitList Char.isWhitespace s.data).map String.mk).filter (fun t => t != "")

/-- `parse_input` (src/main.rs lines 60-74): first whitespace token is the
command name (not decoded), the rest are percent-decoded arguments.
An empty or all-whitespace line yields the empty command name. -/
def parseInput (input : String) : String × List String :=
  match splitWhitespace input with
  | [] => ("", [])
  | c :: rest => (c, rest.map decodeStr)

/- ### Path model (component semantics of Rust `std::path` on Unix)

`handle_fsevent` (src/main.rs lines 124-134) tests
`file_path.starts_with(replica_path)` and then strips the root with
`file_path.strip_prefix(replica_path)`. Both operate on whole path
components, never on raw characters. We model a Unix path by its
component list: a leading `"/"` marker for the root directory of an
absolute path, a leading `"."` marker when the path is `.` or starts
with `./`, then the non-empty segments (empty segments from repeated or
trailing separators and interior `.` segments are dropped, exactly as
`Path::components` normalises). -/

/-- Whether the first character of the string is `c`. -/
def headIs (s : String) (c : Char) : Bool :=
  match s.data with
  | [] => false
  | d :: _ => d == c

/-- Whether the string is `.` or starts with `./` (Rust keeps a leading
`CurDir` component exactly in this case). -/
def headIsCurDir (s : String) : Bool :=
  match s.data with
  | ['.'] => true
  | '.' :: '/' :: _ => true
  | _ => false

/-- The non-empty, non-`.` slash-separated segments of a path string. -/
def pathSegments (s : String) : List String :=
  ((splitList (fun c => c == '/') s.data).map String.mk).filter
    (fun t => t != "" && t != ".")

/-- Component list of a path string (see section comment). -/
def pathComponents (s : String) : List String :=
  if headIs s '/' then "/" :: pathSegments s
  else if headIsCurDir s then "." :: pathSegments s
  else pathSegments s

/-- Whether `base` is an initial run of `l` (component-wise). -/
def listStartsWith : List String → List String → Bool
  | _, [] => true
  | [], _ :: _ => false
  | a :: as, b :: bs => a == b && listStartsWith as bs

/-- `p.starts_with(base)` for Rust paths: component-wise prefix test. -/
def pathStartsWith (p base : String) : Bool :=
  listStartsWith (pathComponents p) (pathComponents base)

/-- Render a component list back to a path string (how the stripped
relative path is turned into a `String` via `to_string_lossy`). -/
def joinComponents : List String → String
  | "/" :: rest => "/" ++ String.intercalate "/" rest
  | cs => String.intercalate "/" cs

/-- `p.strip_prefix(base)` rendered as a string: drop `base`'s components
from the front of `p`'s components (src/main.rs line 127; in the source
the call is guarded by `starts_with`, so the error case is unreachable). -/
def stripRoot (base p : String) : String :=
  joinComponents ((pathComponents p).drop (pathComponents base).length)

/- ### Protocol output and session state -/

/-- One stdout line, by the helper that emits it (src/main.rs lines 28-58):
`version` for the startup `VERSION 1`, `ok` for `ack`, `changesNote` for
the push-style `CHANGES <replica>` notification, `recursive` and `done`
for a `CHANGES` reply, `error` for the `ERROR <msg>` line printed by
`error()` just before `exit(1)`. Arguments are carried unrendered;
`send_cmd` percent-encodes them on the wire (the codec is studied
byte-exactly above). -/
inductive Out where
  | version (v : String)
  | ok
  | changesNote (r : String)
  | recursive (p : String)
  | done
  | error (msg : String)
deriving Repr, DecidableEq

/-- Whether an output line is an `ERROR` line. -/
def isErrorLine : Out → Bool
  | .error _ => true
  | _ => false

/-- The mutable session state of `main` (src/main.rs lines 166-174):
`replicas` is the id → root-path map, `pending` the id → changed-paths
map, `watched` the set of paths with an active recursive watch (the
observable registration state of the `RecommendedWatcher`). -/
structure Session where
  replicas : List (String × String)
  pending : List (String × List String)
  watched : List String
deriving Repr, DecidableEq

/-- `notify::DebouncedEvent` (the variants src/main.rs lines 107-121
distinguishes; `other` stands for the remaining administrative variants
such as `Rescan`, which the catch-all arm ignores). -/
inductive FsEvent where
  | noticeWrite (p : String)
  | noticeRemove (p : String)
  | create (p : String)
  | write (p : String)
  | chmod (p : String)
  | remove (p : String)
  | rename (p1 p2 : String)
  | fsError (msg : String)
  | other
deriving Repr, DecidableEq

/-- The paths an event contributes, or `none` for the `Error` variant
(which `handle_fsevent` turns into a `bail!`). -/
def eventPaths : FsEvent → Option (List String)
  | .noticeWrite p => some [p]
  | .noticeRemove p => some [p]
  | .create p => some [p]
  | .write p => some [p]
  | .chmod p => some [p]
  | .remove p => some [p]
  | .rename p1 p2 => some [p1, p2]
  | .fsError _ => none
  | .other => some []

/-- `pending_changes.entry(replica).or_default().push(path)`: append to
the replica's sequence, creating the entry if absent. -/
def pendingPush (pending : List (String × List String)) (k : String)
    (v : String) : List (String × List String) :=
  if pending.any (fun e => e.1 == k) then
    pending.map (fun e => if e.1 == k then (e.1, e.2 ++ [v]) else e)
  else pending ++ [(k, [v])]

/-- `pending_changes.remove(&replica).unwrap_or_default()`: the drained
sequence together with the map without that key. -/
def drainPending (pending : List (String × List String)) (k : String) :
    List String × List (String × List String) :=
  ((((pending.find? (fun e => e.1 == k)).map (fun e => e.2)).getD []),
   pending.filter (fun e => e.1 != k))

/-- `replicas.insert(replica, path)`: replace the binding if the key is
present, otherwise add it. -/
def ainsert (m : List (String × String)) (k v : String) :
    List (String × String) :=
  if m.any (fun e => e.1 == k) then
    m.map (fun e => if e.1 == k then (k, v) else e)
  else m ++ [(k, v)]

/-- Inner loop of `handle_fsevent` (src/main.rs lines 124-134) for one
event path: for every registered replica whose root the path lies under,
append the stripped relative path to that replica's pending sequence. -/
def recordPath (replicas : List (String × String))
    (pending : List (String × List String)) (p : String) :
    List (String × List String) :=
  replicas.foldl
    (fun pend e =>
      if pathStartsWith p e.2 then pendingPush pend e.1 (stripRoot e.2 p)
      else pend)
    pending

/-- Event-processing loop of `handle_fsevent`: record every path of every
buffered event; an `Error` event aborts with `bail!` (src/main.rs
lines 118-120). -/
def recordEvents (replicas : List (String × String)) :
    List (String × List String) → List FsEvent →
    Except String (List (String × List String))
  | pending, [] => .ok pending
  | pending, ev :: rest =>
    match eventPaths ev with
    | none => .error "Error occured at watched path"
    | some ps =>
      recordEvents replicas (ps.foldl (recordPath replicas) pending) rest

/-- `handle_fsevent` (src/main.rs lines 98-142): drain the buffered
events into the pending table, then emit one push-notification
`CHANGES <replica>` line per key of the table. -/
def handleFsevent (events : List FsEvent) (st : Session) :
    Except String (Session × List Out) :=
  match recordEvents st.replicas st.pending events with
  | .error e => .error e
  | .ok pending2 =>
    .ok ({ st with pending := pending2 },
         pending2.map (fun e => Out.changesNote e.1))

/- ### START sub-protocol and command dispatch -/

/-- Outcome of the `DIR`/`LINK`/`DONE` loop of `add_to_watcher`
(src/main.rs lines 84-93): `completed` carries the emitted lines and the
input lines left unconsumed after `DONE`; `linkErr` is the `bail!` on
`LINK` (error value propagates out of `main`, process exits non-zero, no
`ERROR` line); `cmdErr` is the `error()` call on an unexpected command
(prints the `ERROR` line, then `exit(1)`); `moreInput` marks the model
boundary where the source would block on `rx.recv()` for another line. -/
inductive WalkResult where
  | completed (out : List Out) (rest : List String)
  | linkErr (out : List Out) (msg : String)
  | cmdErr (out : List Out)
  | moreInput (out : List Out)
deriving Repr, DecidableEq

/-- The loop of `add_to_watcher` over the queued input lines, with `acc`
the lines emitted so far (`ack()` answers each `DIR`). -/
def walkLoop : List String → List Out → WalkResult
  | [], acc => .moreInput acc
  | line :: rest, acc =>
    let cmd := (parseInput line).1
    if cmd == "DIR" then walkLoop rest (acc ++ [Out.ok])
    else if cmd == "LINK" then
      .linkErr acc "link following is not supported, please disable this option (-links)"
    else if cmd == "DONE" then .completed acc rest
    else .cmdErr (acc ++ [Out.error ("Unexpected cmd: " ++ cmd)])

/-- Result of processing one command line of the main loop (src/main.rs
lines 193-222). Every constructor carries the session state as it stands
at that point, so frame properties can be stated:
* `ok`: the iteration finished, the loop continues;
* `errorExit`: `error()` ran — the `ERROR` line is the last entry of
  `out` and the process exits with status 1;
* `errExit`: an error value propagated out of `main` via `bail!` or `?`
  — the process exits non-zero without emitting an `ERROR` line;
* `panicked`: `args.remove(0)` ran on an empty vector — the process
  aborts without emitting anything;
* `needInput`: the `START` walk exhausted the supplied lines (the source
  would block). -/
inductive StepResult where
  | ok (st : Session) (out : List Out)
  | errorExit (st : Session) (out : List Out)
  | errExit (st : Session) (out : List Out) (msg : String)
  | panicked (st : Session) (out : List Out)
  | needInput (st : Session) (out : List Out)
deriving Repr, DecidableEq

/-- The session state a step result carries. -/
def StepResult.state : StepResult → Session
  | .ok st _ => st
  | .errorExit st _ => st
  | .errExit st _ _ => st
  | .panicked st _ => st
  | .needInput st _ => st

/-- The lines a step result emitted. -/
def StepResult.lines : StepResult → List Out
  | .ok _ out => out
  | .errorExit _ out => out
  | .errExit _ out _ => out
  | .panicked _ out => out
  | .needInput _ out => out

/-- Whether the result ends the process with a non-zero status. -/
def StepResult.isFatal : StepResult → Bool
  | .errorExit _ _ => true
  | .errExit _ _ _ => true
  | _ => false

/-- Command dispatch on a parsed line (src/main.rs lines 195-222), with
`followUps` the input lines available to a `START` walk.
Faithful points worth naming:
* every command other than `WAIT` first runs `pending_changes.clear()`
  (lines 195-197) — including `CHANGES` itself;
* `START` pops id and path with `args.remove(0)` (panics when absent),
  registers the recursive watch (modelled as always succeeding — no claim
  exercises watch-registration failure), and only inserts into `replicas`
  when the walk returns normally;
* `RESET` passes the replica id — not the stored root path — to
  `watcher.unwatch` and touches neither `replicas` nor `pending`;
  `notify` reports an error for a path that is not being watched, which
  `?` turns into a non-zero exit. -/
def dispatchCmd (st : Session) (cmd : String) (args : List String)
    (followUps : List String) : StepResult :=
  if cmd == "DEBUG" then .ok st []
  else if cmd == "START" then
    match args with
    | [] => .panicked st []
    | [_] => .panicked st []
    | replica :: path :: _ =>
      let st2 : Session := { st with watched := st.watched ++ [path] }
      match walkLoop followUps [Out.ok] with
      | .completed out _ =>
        .ok { st2 with replicas := ainsert st2.replicas replica path } out
      | .linkErr out msg => .errExit st2 out msg
      | .cmdErr out => .errorExit st2 out
      | .moreInput out => .needInput st2 out
  else if cmd == "WAIT" then .ok st []
  else if cmd == "CHANGES" then
    match args with
    | [] => .panicked st []
    | replica :: _ =>
      let dr := drainPending st.pending replica
      .ok { st with pending := dr.2 } (dr.1.map Out.recursive ++ [Out.done])
  else if cmd == "RESET" then
    match args with
    | [] => .panicked st []
    | replica :: _ =>
      if st.watched.any (fun w => w == replica) then
        .ok { st with watched := st.watched.filter (fun w => w != replica) } []
      else .errExit st [] ("watch not found: " ++ replica)
  else .errorExit st [Out.error ("Unexpected root cmd: " ++ cmd)]

/-- One main-loop line (src/main.rs lines 193-222): parse, clear the
pending table unless the command is `WAIT`, dispatch. -/
def dispatch (st : Session) (line : String) (followUps : List String) :
    StepResult :=
  let pa := parseInput line
  dispatchCmd (if pa.1 != "WAIT" then { st with pending := [] } else st)
    pa.1 pa.2 followUps

/-- The version handshake (src/main.rs lines 147-164): after printing
`VERSION 1` the program takes exactly one line off the input channel; its
command must be `VERSION` and its first decoded argument must be `1`,
otherwise `bail!` ends the process (non-zero, no `ERROR` line) before the
main loop — `Ready` — is ever entered. -/
def handshake (line : String) : Except String Unit :=
  let pa := parseInput line
  if pa.1 != "VERSION" then .error ("Unexpected version cmd: " ++ pa.1)
  else if pa.2.head? != some "1" then .error "Unexpected version"
  else .ok ()

/-- The `VERSION 1` line `main` prints before reading anything
(src/main.rs line 147). -/
def startupLine : Out := Out.version "1"

/- ### Spec-side predicate for the root-matching claim -/

/-- Modelled from the spec: `P` is `R` itself or lies strictly under `R`
as a directory descendant — their component lists agree, or `P`'s extends
`R`'s by at least one component. Stated from the spec's words to compare
with the source-side test `pathStartsWith`. -/
def isDescendant (R P : String) : Prop :=
  pathComponents P = pathComponents R ∨
    ∃ rest, rest ≠ [] ∧ pathComponents P = pathComponents R ++ rest

/- ### Theorems -/

/-- C1: the spec says that with replica `a → /tmp/x` registered and a
write observed at `/tmp/x/f.txt`, the host command `CHANGES a` is answered
with `RECURSIVE f.txt` then `DONE`. The code records the change (first
conjunct: the pending table holds `f.txt` and the push notification
`CHANGES a` is emitted), but the main loop clears the whole pending table
for every non-`WAIT` command — including `CHANGES` itself — before the
drain runs (src/main.rs lines 195-197 before line 211), so the reply to
`CHANGES a` is only `DONE`, with no `RECURSIVE` line. -/
theorem changes_after_write_emits_only_done :
    handleFsevent [FsEvent.write "/tmp/x/f.txt"]
        ⟨[("a", "/tmp/x")], [], ["/tmp/x"]⟩
      = .ok (⟨[("a", "/tmp/x")], [("a", ["f.txt"])], ["/tmp/x"]⟩,
             [Out.changesNote "a"])
    ∧ dispatch ⟨[("a", "/tmp/x")], [("a", ["f.txt"])], ["/tmp/x"]⟩
        "CHANGES a" []
      = .ok ⟨[("a", "/tmp/x")], [], ["/tmp/x"]⟩ [Out.done] := ⟨rfl, by decide⟩

/-- C4: the spec says `RESET a` cancels the watch registered at the
replica's stored path and removes its bookkeeping. The code instead
passes the replica id itself to `watcher.unwatch` (src/main.rs line 219)
and never touches the registry: with `a → /tmp/x` registered and
`/tmp/x` watched, `RESET a` asks the watcher to unwatch `"a"`, which is
not a watched path, so the error propagates out of `main` (non-zero
exit); the watch at `/tmp/x` stays active and the registry still holds
the replica. -/
theorem reset_unwatches_id_and_keeps_registry :
    dispatch ⟨[("a", "/tmp/x")], [], ["/tmp/x"]⟩ "RESET a" []
      = .errExit ⟨[("a", "/tmp/x")], [], ["/tmp/x"]⟩ [] "watch not found: a"
    ∧ ((dispatch ⟨[("a", "/tmp/x")], [], ["/tmp/x"]⟩ "RESET a" []).state).watched
      = ["/tmp/x"]
    ∧ ((dispatch ⟨[("a", "/tmp/x")], [], ["/tmp/x"]⟩ "RESET a" []).state).replicas
      = [("a", "/tmp/x")] := by decide

/-- C5: the spec requires `encode` to percent-encode every whitespace
character, in particular the space that separates protocol fields. The
code's `SIMPLE_ENCODE_SET` covers only bytes below `0x20` and above
`0x7E`: the tab byte is encoded (`%09`) but the space byte `0x20` passes
through unchanged, so an argument containing a space is split into two
whitespace-delimited tokens on the wire (last conjunct: the receiving
side's tokenizer splits at the unencoded space). -/
theorem encode_leaves_space_unencoded :
    encodeBytes [32] = [32]
    ∧ simpleEncodeSet 32 = false
    ∧ encodeBytes [9] = [37, 48, 57]
    ∧ splitWhitespace "RECURSIVE a b" = ["RECURSIVE", "a", "b"] := by decide

/-- C10: a post-handshake `START`, `CHANGES` or `RESET` line with no
argument makes `args.remove(0)` run on an empty vector, which panics
(src/main.rs lines 202, 210, 218): the process aborts with no output —
in particular no `ERROR` line. -/
theorem missing_args_panic_without_error :
    dispatch ⟨[], [], []⟩ "START" [] = .panicked ⟨[], [], []⟩ []
    ∧ dispatch ⟨[], [], []⟩ "CHANGES" [] = .panicked ⟨[], [], []⟩ []
    ∧ dispatch ⟨[], [], []⟩ "RESET" [] = .panicked ⟨[], [], []⟩ []
    ∧ parseInput "START" = ("START", []) := by decide

/-- C6 counterexample: `decode` is not a left inverse of `encode`. The
`%` byte is printable, so `encode` passes the string `%41` through
unchanged, and `percent_decode` then collapses it to the single byte
`A`: `decode(encode("%41")) = "A" ≠ "%41"`. -/
theorem decode_encode_roundtrip_fails_on_percent :
    encodeBytes [37, 52, 49] = [37, 52, 49]
    ∧ percentDecode (encodeBytes [37, 52, 49]) = [65]
    ∧ percentDecode (encodeBytes [37, 52, 49]) ≠ [37, 52, 49] := by decide

/-- C3 counterexample: a `LINK` line during the `START` sub-protocol is a
fatal error (`bail!`, src/main.rs line 89) whose error value propagates
out of `main`: the process exits non-zero having emitted only the `OK`
acknowledgement — no `ERROR` line — contradicting the claim that every
fatal error path emits `ERROR` before exiting. -/
theorem link_fatal_exit_has_no_error_line :
    dispatch ⟨[], [], []⟩ "START b /tmp/y" ["LINK"]
      = .errExit ⟨[], [], ["/tmp/y"]⟩ [Out.ok]
          "link following is not supported, please disable this option (-links)"
    ∧ ((dispatch ⟨[], [], []⟩ "START b /tmp/y" ["LINK"]).lines).any isErrorLine
      = false
    ∧ (dispatch ⟨[], [], []⟩ "START b /tmp/y" ["LINK"]).isFatal = true := by
  decide

/-- Component-wise prefix test, characterised: `base` is an initial run
of `l` iff `l` is `base` followed by some tail. -/
theorem listStartsWith_iff_append (l base : List String) :
    listStartsWith l base = true ↔ ∃ t, l = base ++ t := by
  induction base generalizing l with
  | nil => simp [listStartsWith]
  | cons b bs ih =>
    cases l with
    | nil => simp [listStartsWith]
    | cons a as =>
      simp [listStartsWith, Bool.and_eq_true, beq_iff_eq, ih, List.cons_eq_cons]

/-- The source's membership test equals the spec's descendant relation. -/
theorem pathStartsWith_iff_isDescendant (R P : String) :
    pathStartsWith P R = true ↔ isDescendant R P := by
  rw [pathStartsWith, listStartsWith_iff_append, isDescendant]
  constructor
  · rintro ⟨t, ht⟩
    cases t with
    | nil => exact Or.inl (by simpa using ht)
    | cons x xs => exact Or.inr ⟨x :: xs, by simp, ht⟩
  · rintro (h | ⟨rest, _, h⟩)
    · exact ⟨[], by simpa using h⟩
    · exact ⟨rest, h⟩

/-- C2: the aggregator records a change for a replica with root `R` on an
event path `P` iff `P` is `R` itself or lies strictly under `R` as a
directory descendant (`Path::starts_with` compares whole components).
A path sharing only a string prefix with the root, without a component
boundary, is not recorded: `/database/file` is not recorded under root
`/data`, and `/a/bc/x` is not recorded under `/a/b`, while `/data/file`
is recorded under `/data`. -/
theorem recordPath_iff_descendant :
    (∀ r R P, recordPath [(r, R)] [] P ≠ [] ↔ isDescendant R P)
    ∧ recordPath [("id", "/data")] [] "/database/file" = []
    ∧ recordPath [("id", "/data")] [] "/data/file" = [("id", ["file"])]
    ∧ recordPath [("id", "/a/b")] [] "/a/bc/x" = [] := by
  refine ⟨fun r R P => ?_, by decide, by decide, by decide⟩
  rw [← pathStartsWith_iff_isDescendant]
  simp only [recordPath, List.foldl, pendingPush, List.any_nil]
  by_cases h : pathStartsWith P R = true
  · simp [h]
  · simp [h]

/-- C7: after printing `VERSION 1` the program reads exactly one command
line, and the session reaches the `Ready` main loop iff that line's
command is `VERSION` with first argument `1`; any other command name or
version value makes the handshake `bail!`, terminating the session
before `Ready`. -/
theorem handshake_reaches_ready_iff :
    startupLine = Out.version "1"
    ∧ (∀ line, handshake line = .ok () ↔
        ((parseInput line).1 = "VERSION"
          ∧ ((parseInput line).2).head? = some "1"))
    ∧ handshake "VERSION 1" = .ok ()
    ∧ handshake "VERSION 2" = .error "Unexpected version"
    ∧ handshake "DEBUG" = .error "Unexpected version cmd: DEBUG" := by
  refine ⟨rfl, fun line => ?_, rfl, rfl, rfl⟩
  by_cases h1 : (parseInput line).1 = "VERSION" <;>
    by_cases h2 : ((parseInput line).2).head? = some "1" <;>
      simp [handshake, h1, h2]

/-- If the pending table is empty going in, it is empty in the state every
command leaves behind (no dispatch path adds pending entries). -/
theorem dispatchCmd_pending_empty (st : Session) (cmd : String)
    (args : List String) (fs : List String) (h : st.pending = []) :
    ((dispatchCmd st cmd args fs).state).pending = [] := by
  unfold dispatchCmd
  split_ifs <;> repeat' split
  all_goals simp_all [StepResult.state, drainPending]

/-- C8: every main-loop line other than `WAIT` clears the pending-change
table of every replica before its command body runs (and nothing during
dispatch repopulates it), while a `WAIT` line leaves the whole session
state unchanged and emits no response. -/
theorem pending_cleared_unless_wait :
    (∀ st line fs, (parseInput line).1 ≠ "WAIT" →
      ((dispatch st line fs).state).pending = [])
    ∧ (∀ st line fs, (parseInput line).1 = "WAIT" →
      dispatch st line fs = .ok st []) := by
  constructor
  · intro st line fs h
    rw [dispatch]
    have hb : ((parseInput line).1 != "WAIT") = true := by
      simpa using h
    rw [hb]
    exact dispatchCmd_pending_empty _ _ _ _ rfl
  · intro st line fs h
    rw [dispatch]
    simp only [h]
    rfl

/-- C8 witness: a `DEBUG` line clears the queued change for replica `a`;
a `WAIT a` line leaves it queued and answers nothing. -/
theorem pending_cleared_unless_wait_witness :
    ((dispatch ⟨[("a", "/tmp/x")], [("a", ["p q"])], []⟩ "DEBUG" []).state).pending = []
    ∧ dispatch ⟨[("a", "/tmp/x")], [("a", ["p q"])], []⟩ "WAIT a" []
      = .ok ⟨[("a", "/tmp/x")], [("a", ["p q"])], []⟩ [] :=
  ⟨pending_cleared_unless_wait.1 ⟨[("a", "/tmp/x")], [("a", ["p q"])], []⟩
      "DEBUG" [] (by decide),
   pending_cleared_unless_wait.2 ⟨[("a", "/tmp/x")], [("a", ["p q"])], []⟩
      "WAIT a" [] (by decide)⟩

/-- If the walk loop ends in the unexpected-command branch, the `ERROR`
line is the last line it emitted. -/
theorem walkLoop_cmdErr_lines (fs : List String) (acc out : List Out)
    (h : walkLoop fs acc = .cmdErr out) :
    ∃ msg, out.getLast? = some (Out.error msg) := by
  induction fs generalizing acc with
  | nil => simp [walkLoop] at h
  | cons line rest ih =>
    rw [walkLoop] at h
    split_ifs at h with h1 h2 h3 <;>
      first
        | exact ih _ h
        | (cases h <;> exact ⟨_, List.getLast?_concat _⟩)
        | cases h

/-- If the walk loop ends in the `LINK` `bail!`, it emitted `ERROR` lines
exactly when its accumulator already held some (it only appends `OK`s). -/
theorem walkLoop_linkErr_lines (fs : List String) (acc out : List Out)
    (msg : String) (h : walkLoop fs acc = .linkErr out msg) :
    out.any isErrorLine = acc.any isErrorLine := by
  induction fs generalizing acc with
  | nil => simp [walkLoop] at h
  | cons line rest ih =>
    rw [walkLoop] at h
    split_ifs at h with h1 h2 h3 <;>
      first
        | (simpa [isErrorLine] using ih _ h)
        | (cases h <;> rfl)
        | cases h

/-- Every `error()` exit of the dispatcher carries its `ERROR` line as the
last emitted line. -/
theorem dispatchCmd_errorExit_lines (st : Session) (cmd : String)
    (args fs : List String) (st2 : Session) (out : List Out)
    (h : dispatchCmd st cmd args fs = .errorExit st2 out) :
    ∃ msg, out.getLast? = some (Out.error msg) := by
  unfold dispatchCmd at h
  split_ifs at h <;> repeat' split at h
  all_goals cases h
  · exact walkLoop_cmdErr_lines _ _ _ (by assumption)
  · exact ⟨"Unexpected root cmd: " ++ cmd, by simp⟩

/-- Every `bail!`/`?` exit of the dispatcher emitted no `ERROR` line. -/
theorem dispatchCmd_errExit_lines (st : Session) (cmd : String)
    (args fs : List String) (st2 : Session) (out : List Out) (msg : String)
    (h : dispatchCmd st cmd args fs = .errExit st2 out msg) :
    out.any isErrorLine = false := by
  unfold dispatchCmd at h
  split_ifs at h <;> repeat' split at h
  all_goals cases h
  · exact walkLoop_linkErr_lines _ _ _ _ (by assumption)
  · rfl

/-- C3 (amended): only the unexpected-command failures (unknown command in
the `Ready` loop, unexpected command during the `START` walk) emit an
`ERROR <message>` line — and there it is the last line before `exit(1)`;
the `bail!`-style fatal paths (handshake failure, `LINK` rejection,
propagated watch-service errors) exit with non-zero status without
emitting any `ERROR` line (the counterexample above shows the `LINK`
case). -/
theorem error_line_on_unexpected_cmd_only :
    (∀ st line fs st2 out, dispatch st line fs = .errorExit st2 out →
      ∃ msg, out.getLast? = some (Out.error msg))
    ∧ (∀ st line fs st2 out msg, dispatch st line fs = .errExit st2 out msg →
      out.any isErrorLine = false) := by
  constructor
  · intro st line fs st2 out h
    simp only [dispatch] at h
    exact dispatchCmd_errorExit_lines _ _ _ _ _ _ h
  · intro st line fs st2 out msg h
    simp only [dispatch] at h
    exact dispatchCmd_errExit_lines _ _ _ _ _ _ _ h

/-- C3 witness: the unknown command `FOO` exits through `error()` with the
`ERROR` line last; `RESET a` with nothing watched exits through `?` with
no `ERROR` line. -/
theorem error_line_on_unexpected_cmd_only_witness :
    (∃ msg, ([Out.error "Unexpected root cmd: FOO"] : List Out).getLast?
        = some (Out.error msg))
    ∧ ([] : List Out).any isErrorLine = false :=
  ⟨error_line_on_unexpected_cmd_only.1 ⟨[], [], []⟩ "FOO" [] ⟨[], [], []⟩
      [Out.error "Unexpected root cmd: FOO"] (by decide),
   error_line_on_unexpected_cmd_only.2 ⟨[], [], []⟩ "RESET a" [] ⟨[], [], []⟩
      [] "watch not found: a" (by decide)⟩

/-- C9: a `START` command inserts the replica into the registry only when
the `DIR`/`LINK`/`DONE` sub-protocol reaches `DONE` (first conjunct: an
`ok` outcome implies the walk completed and the registry gained exactly
the new binding); if the walk instead hits `LINK` or an unexpected
command, the session ends fatally with the registry unchanged (second
conjunct), as in the concrete `LINK` run of the third conjunct (non-zero
exit, empty registry). -/
theorem start_registers_replica_only_after_done :
    (∀ st line fs replica path rest st2 out,
      parseInput line = ("START", replica :: path :: rest) →
      dispatch st line fs = .ok st2 out →
      (∃ rem, walkLoop fs [Out.ok] = .completed out rem)
        ∧ st2.replicas = ainsert st.replicas replica path)
    ∧ (∀ st line fs replica path rest out msg,
      parseInput line = ("START", replica :: path :: rest) →
      walkLoop fs [Out.ok] = .linkErr out msg
        ∨ walkLoop fs [Out.ok] = .cmdErr out →
      (dispatch st line fs).isFatal = true
        ∧ ((dispatch st line fs).state).replicas = st.replicas)
    ∧ dispatch ⟨[], [], []⟩ "START a /tmp/x" ["LINK"]
      = .errExit ⟨[], [], ["/tmp/x"]⟩ [Out.ok]
          "link following is not supported, please disable this option (-links)" := by
  refine ⟨?_, ?_, by decide⟩
  · intro st line fs replica path rest st2 out hp hd
    rw [dispatch, hp] at hd
    rcases w : walkLoop fs [Out.ok] with ⟨wout, rem⟩ | ⟨wout, msg2⟩ | wout | wout <;>
      simp [dispatchCmd, w] at hd
    obtain ⟨hst, hout⟩ := hd
    subst hout
    exact ⟨⟨rem, rfl⟩, by rw [← hst]⟩
  · intro st line fs replica path rest out msg hp hw
    rw [dispatch, hp]
    rcases hw with hw | hw <;>
      simp [dispatchCmd, hw, StepResult.isFatal, StepResult.state]

/-- C9 witness: the walk `DIR`, `DONE` completes and `START a /tmp/x`
registers `a → /tmp/x` in the empty registry. -/
theorem start_registers_replica_only_after_done_witness :
    (∃ rem, walkLoop ["DIR", "DONE"] [Out.ok]
        = .completed [Out.ok, Out.ok] rem)
    ∧ (Session.mk [("a", "/tmp/x")] [] ["/tmp/x"]).replicas
      = ainsert (Session.mk [] [] []).replicas "a" "/tmp/x" :=
  start_registers_replica_only_after_done.1 ⟨[], [], []⟩ "START a /tmp/x"
    ["DIR", "DONE"] "a" "/tmp/x" [] ⟨[("a", "/tmp/x")], [], ["/tmp/x"]⟩
    [Out.ok, Out.ok] (by decide) (by decide)


theorem fromHex_toHex (n : Nat) (h : n < 16) :
    fromHexDigit (toHexDigit n) = some n := by
  interval_cases n <;> decide

theorem noPctHex_tail (b : Nat) (rest : List Nat)
    (h : noPctHex (b :: rest) = true) : noPctHex rest = true := by
  rcases rest with _ | ⟨x, _ | ⟨y, r⟩⟩
  · rfl
  · rfl
  · simp only [noPctHex, Bool.and_eq_true] at h
    exact h.2

theorem pd_cons_ne (b : Nat) (rest : List Nat) (hb : b ≠ 37) :
    percentDecode (b :: rest) = b :: percentDecode rest := by
  rcases rest with _ | ⟨h, _ | ⟨l, r⟩⟩ <;> simp [percentDecode, hb]

theorem pd_single (c : Nat) : percentDecode [c] = [c] := by
  by_cases h : c = 37
  · subst h; decide
  · simp [pd_cons_ne, h, percentDecode]

theorem pd_pair (c : Nat) : percentDecode [37, c] = [37, c] := by
  have : percentDecode (37 :: c :: ([] : List Nat)) = 37 :: percentDecode [c] := by
    simp [percentDecode]
  rw [this, pd_single]

theorem pd_37_hex (h l : Nat) (rest : List Nat) (hv lv : Nat)
    (hh : fromHexDigit h = some hv) (hl : fromHexDigit l = some lv) :
    percentDecode (37 :: h :: l :: rest) = (hv * 16 + lv) :: percentDecode rest := by
  simp [percentDecode, hh, hl]

theorem pd_37_fallback (h l : Nat) (rest : List Nat)
    (hn : fromHexDigit h = none ∨ fromHexDigit l = none) :
    percentDecode (37 :: h :: l :: rest) = 37 :: percentDecode (h :: l :: rest) := by
  rcases hn with hn | hn
  · simp [percentDecode, hn]
  · cases hh : fromHexDigit h <;> simp [percentDecode, hh, hn]

/-- C6 (amended): decoding is a left inverse of encoding on every byte
string in which no literal `%` byte is immediately followed by two
hex-digit bytes (the `noPctHex` side condition); the counterexample above
shows the general claim fails on `%41`. The trailing lossy UTF-8 decode
of the source is the identity on the valid UTF-8 input bytes recovered
here. -/
theorem decode_encode_roundtrip_on_no_pct_hex (bs : List Nat)
    (hb : ∀ b ∈ bs, b < 256) (hs : noPctHex bs = true) :
    percentDecode (encodeBytes bs) = bs := by
  induction bs with
  | nil => rfl
  | cons b rest ih =>
    have hb256 : b < 256 := hb b (by simp)
    have hbrest : ∀ x ∈ rest, x < 256 := fun x hx => hb x (by simp [hx])
    have hsrest : noPctHex rest = true := noPctHex_tail _ _ hs
    have ihr := ih hbrest hsrest
    by_cases henc : simpleEncodeSet b = true
    · have hexpand : encodeBytes (b :: rest)
          = 37 :: toHexDigit (b / 16) :: toHexDigit (b % 16) :: encodeBytes rest := by
        simp [encodeBytes, henc, percentEncodeByte]
      rw [hexpand,
        pd_37_hex _ _ _ _ _ (fromHex_toHex _ (by omega)) (fromHex_toHex _ (by omega)),
        ihr]
      congr 1
      omega
    · have hexpand : encodeBytes (b :: rest) = b :: encodeBytes rest := by
        simp [encodeBytes, henc]
      by_cases hb37 : b = 37
      · subst hb37
        rcases rest with _ | ⟨c, rest2⟩
        · decide
        · by_cases hc : simpleEncodeSet c = true
          · have h2 : encodeBytes (c :: rest2)
                = 37 :: toHexDigit (c / 16) :: toHexDigit (c % 16) :: encodeBytes rest2 := by
              simp [encodeBytes, hc, percentEncodeByte]
            rw [hexpand, h2, pd_37_fallback _ _ _ (Or.inl (by decide)), ← h2, ihr]
          · have h2 : encodeBytes (c :: rest2) = c :: encodeBytes rest2 := by
              simp [encodeBytes, hc]
            rcases rest2 with _ | ⟨d, rest3⟩
            · rw [hexpand, h2]
              have henc0 : encodeBytes ([] : List Nat) = [] := rfl
              rw [henc0, pd_pair]
            · have h1or : isHexDigit c = false ∨ isHexDigit d = false := by
                simp only [noPctHex, Bool.and_eq_true] at hs
                rcases hs with ⟨h1, _⟩
                simpa using h1
              have hnd : fromHexDigit c = none ∨ fromHexDigit d = none := by
                rcases h1or with h1 | h1
                · left
                  cases hfc : fromHexDigit c
                  · rfl
                  · simp [isHexDigit, hfc] at h1
                · right
                  cases hfd : fromHexDigit d
                  · rfl
                  · simp [isHexDigit, hfd] at h1
              by_cases hd : simpleEncodeSet d = true
              · have h3 : encodeBytes (d :: rest3)
                    = 37 :: toHexDigit (d / 16) :: toHexDigit (d % 16) :: encodeBytes rest3 := by
                  simp [encodeBytes, hd, percentEncodeByte]
                rw [hexpand, h2, h3, pd_37_fallback _ _ _ (Or.inr (by decide)),
                  ← h3, ← h2, ihr]
              · have h3 : encodeBytes (d :: rest3) = d :: encodeBytes rest3 := by
                  simp [encodeBytes, hd]
                rw [hexpand, h2, h3, pd_37_fallback _ _ _ hnd, ← h3, ← h2, ihr]
      · rw [hexpand, pd_cons_ne _ _ hb37, ihr]

/-- C6 witness: the bytes of `hi %` (space, control tab, trailing percent)
round-trip through encode then decode. -/
theorem decode_encode_roundtrip_on_no_pct_hex_witness :
    percentDecode (encodeBytes [104, 105, 9, 32, 37]) = [104, 105, 9, 32, 37] :=
  decode_encode_roundtrip_on_no_pct_hex [104, 105, 9, 32, 37]
    (by decide) (by decide)
